import Mathlib

/-!
# A verification development for the jxmlease node-tree and streaming-extraction core

This file gives a shallow embedding, in Lean 4, of the algorithmic core of the
jxmlease package (Juniper/jxmlease): the XML node tree model with its
replacement/forwarding protocol (`jxmlease/_basenode.py`, `jxmlease/cdatanode.py`,
`jxmlease/dictnode.py`, `jxmlease/listnode.py`), the SAX-driven path matcher
(`jxmlease/_parsehandler.py`), and the parser wrapper's empty-document handling
(`jxmlease/xmlparser.py`), together with theorems about the embedded definitions.

Python specifics are modelled explicitly:
* machine-level Python strings are Lean `String`s;
* `OrderedDict` values are association lists (`List (String × α)`) whose update
  operation preserves the position of an existing key and appends new keys;
* exceptions are `Except` results; a caught exception is a handled branch;
* Python object identity is an explicit `id : Nat` field, while Python `==`
  (inherited from `str`/`OrderedDict`/`list` by the node classes) is the
  separate structural function `pyEq` which ignores identity and the
  `tag`/`key`/attribute bookkeeping fields.
-/

/-- Decidable equality of `Except` results (component-wise). -/
instance {ε α : Type} [DecidableEq ε] [DecidableEq α] : DecidableEq (Except ε α) :=
  fun a b =>
    match a, b with
    | .ok x, .ok y =>
      if h : x = y then .isTrue (by rw [h]) else .isFalse (by simp [h])
    | .error x, .error y =>
      if h : x = y then .isTrue (by rw [h]) else .isFalse (by simp [h])
    | .ok _, .error _ => .isFalse (by simp)
    | .error _, .ok _ => .isFalse (by simp)

namespace Jxmlease

/-! ## Path matcher: `_DictSAXHandler._parse_generator_matches` and friends

Embedding of `jxmlease/_parsehandler.py`.
-/

/-- The `_GeneratorMatch` data structure of `_parsehandler.py`: a parsed match
pattern.  `rooted` records a leading slash, `elements` the path segments,
`depth` the number of segments, `matchString` the original pattern string. -/
structure GMatch where
  rooted : Bool
  elements : List String
  depth : Nat
  matchString : String
  deriving Repr, DecidableEq

/-- The exceptions that `_parse_generator_matches` can let escape: the explicit
`Warning` it raises for an empty path element, and the `IndexError` raised by
`parsed_match_string[-1]` when the segment list has become empty. -/
inductive PatternErr where
  | warning (msg : String)
  | indexError
  deriving Repr, DecidableEq

/-- Python's `s.split("/")`: split on every `/` character, keeping empty
pieces, so that `"".split("/") == [""]` and `"/".split("/") == ["", ""]`.
(Implemented character by character so that it evaluates by structural
recursion; it agrees with `String.splitOn · "/"`.) -/
def pySplitSlash (s : String) : List String :=
  go s.data []
where
  /-- `acc` holds the current piece's characters in reverse. -/
  go : List Char → List Char → List String
    | [], acc => [String.mk acc.reverse]
    | c :: cs, acc =>
      if c = '/' then String.mk acc.reverse :: go cs []
      else go cs (c :: acc)

/-- Embedding of `_DictSAXHandler._parse_generator_matches` (`_parsehandler.py`
lines 67-91).  The pattern string is split on `/`; a leading empty segment sets
`rooted` and is removed; a single trailing empty segment is removed; any
remaining empty segment raises a `Warning`.  Python's `lst[-1]` on an empty
list raises `IndexError`. -/
def parseGeneratorMatches (matchString : String) : Except PatternErr GMatch :=
  let l0 := pySplitSlash matchString
  -- "Determine if we had a leading slash": str.split always yields a
  -- non-empty list, so parsed_match_string[0] never raises here.
  let rooted := l0.head? = some ""
  let l1 := if rooted then l0.tail else l0
  -- "Pop a single trailing slash": parsed_match_string[-1] raises IndexError
  -- on an empty list (which can only happen after the leading "" was removed).
  match l1.getLast? with
  | none => .error .indexError
  | some last =>
    let l2 := if last = "" then l1.dropLast else l1
    -- "Verify there are no other empty elements."
    if l2.any (fun i => i = "") then
      .error (.warning ("Match condition contains empty path elements (" ++
                        matchString ++ ")"))
    else
      .ok { rooted := rooted, elements := l2, depth := l2.length,
            matchString := matchString }

/-- Python's `path[-depth:]` as used in `_check_generator_matches`: for
`depth = 0` the slice `[-0:]` is the whole list; for `depth > 0` it is the
last `depth` elements (or the whole list when `depth > len(path)`). -/
def pySliceLast (depth : Nat) (path : List String) : List String :=
  if depth = 0 then path else path.drop (path.length - depth)

/-- The per-pattern test performed inside the loop of
`_DictSAXHandler._check_generator_matches` (`_parsehandler.py` lines 96-101):
the two `continue` guards followed by the element comparison. -/
def matchesTest (m : GMatch) (path : List String) : Bool :=
  if m.rooted && path.length ≠ m.depth then false
  else if !m.rooted && path.length < m.depth then false
  else m.elements = pySliceLast m.depth path

/-- The joined path emitted with a match: `'/'.join([""] + self.path)`,
with the empty result replaced by the literal `"/"`. -/
def joinedPath (path : List String) : String :=
  let p := String.intercalate "/" ("" :: path)
  if p = "" then "/" else p

/-- The `for match in self.match_tests` loop of
`_DictSAXHandler._check_generator_matches` (`_parsehandler.py` lines 96-106).
`item` stands for `self.item`.  The function returns the tuple appended to
`self.matches`, if any; the `break` after the first successful append means
at most one tuple is appended per call, which the `Option` result captures. -/
def checkGeneratorLoop (path : List String) (item : Nat) :
    List GMatch → Option (String × String × Nat)
  | [] => none
  | m :: rest =>
    if m.rooted && path.length ≠ m.depth then checkGeneratorLoop path item rest
    else if !m.rooted && path.length < m.depth then checkGeneratorLoop path item rest
    else if m.elements = pySliceLast m.depth path then
      some (joinedPath path, m.matchString, item)
    else checkGeneratorLoop path item rest

/-- Embedding of `_DictSAXHandler._check_generator_matches`, continued: the
early return when still above `match_depth`, then the pattern loop. -/
def checkGeneratorMatches (matchDepth : Int) (tests : List GMatch)
    (path : List String) (item : Nat) : Option (String × String × Nat) :=
  if matchDepth > (path.length : Int) then none
  else checkGeneratorLoop path item tests

/-- `self.match_depth` as computed in `_DictSAXHandler.__init__`
(`_parsehandler.py` lines 55-61): the minimum pattern depth, starting from
1000000, or `-1` when no patterns are configured. -/
def computeMatchDepth (tests : List GMatch) : Int :=
  if tests.length > 0 then
    tests.foldl (fun acc m => if (m.depth : Int) < acc then (m.depth : Int) else acc)
      1000000
  else
    -1

/-! ## The replacement chain and `get_current_node`

Embedding of `XMLNodeBase.get_current_node` (`_basenode.py` lines 594-628)
and the replacement links produced by `XMLCDATANode.set_cdata` /
`append_cdata` (`cdatanode.py` lines 62-72).

Nodes are identified by a `Nat` id.  Only the `_replacement_node` attribute
matters for `get_current_node`, so the heap maps each node id to the value of
that attribute: `none` for Python `None`, a node reference, or a reference to
a foreign (non-`XMLNodeBase`) Python object.
-/

/-- A value stored in a `_replacement_node` attribute: a reference to another
node (by id), or a reference to a foreign non-Node Python value. -/
inductive PyRef where
  | node (i : Nat)
  | foreign
  deriving Repr, DecidableEq

/-- The replacement-link heap: each node id's `_replacement_node` attribute
(`none` is Python's `None`). -/
def RHeap := Nat → Option PyRef

/-- Point update of a replacement-link heap. -/
def RHeap.set (h : RHeap) (i : Nat) (v : Option PyRef) : RHeap :=
  fun j => if j = i then v else h j

/-- The `while` loop of `get_current_node`:

```python
while self._replacement_node._replacement_node is not None:
    self._replacement_node = self._replacement_node._replacement_node
```

`r` is the current value of `self._replacement_node` (an invariant of the
loop: `h self = some r`).  When `r` is a foreign value, the attribute access
`r._replacement_node` raises `AttributeError`, which the bare `except` of the
source catches before returning `self._replacement_node`.  The loop writes
only `self`'s own link (path compression of the entry link).  `fuel` bounds
the number of iterations; the source loop diverges on a cyclic chain, which
the model reports as `none`. -/
def getCurrentLoop (fuel : Nat) (h : RHeap) (self : Nat) (r : PyRef) :
    Option (PyRef × RHeap) :=
  match fuel with
  | 0 => none
  | fuel + 1 =>
    match r with
    | .foreign => some (.foreign, h)
    | .node j =>
      match h j with
      | none => some (.node j, h)
      | some x => getCurrentLoop fuel (h.set self (some x)) self x

/-- Embedding of `XMLNodeBase.get_current_node` (`_basenode.py` lines
594-628): if `self._replacement_node is None`, return `self`; otherwise run
the chain-following loop and return the final value of
`self._replacement_node`. -/
def getCurrentNode (fuel : Nat) (h : RHeap) (self : Nat) :
    Option (PyRef × RHeap) :=
  match h self with
  | none => some (.node self, h)
  | some r => getCurrentLoop fuel h self r

/-- The replacement-link heap after `n` successive `set_cdata`/`append_cdata`
calls starting from node `0`, each applied to the then-current node: call
`k+1` (for `k < n`) runs on node `k`, allocates the fresh node `k+1`, and
stores it in node `k`'s `_replacement_node` (`XMLCDATANode.set_cdata` calls
`_replace_node`, whose lines 640-641 record the replacement).  The result is
the chain `0 → 1 → ... → n`. -/
def buildChain : Nat → RHeap × Nat
  | 0 => (fun _ => none, 0)
  | n + 1 =>
    let (h, cur) := buildChain n
    (h.set cur (some (.node (n + 1))), n + 1)

/-- The closed form of `(buildChain n).1`: node `i` points at node `i+1` for
`i < n`, and node `n` (and everything beyond) has no replacement. -/
def chainHeap (n : Nat) : RHeap :=
  fun i => if i < n then some (.node (i + 1)) else none

/-- A chain `0 → 1 → ... → n → foreign`: the same chain, but whose last node's
`_replacement_node` holds a foreign non-Node value. -/
def foreignChain (n : Nat) : RHeap :=
  fun i => if i < n then some (.node (i + 1)) else if i = n then some .foreign else none

/-! ## Stale-node checks and attribute/CDATA operations

Embedding of `XMLNodeBase._check_replacement` (`_basenode.py` lines 274-280)
and the attribute and CDATA accessors around it (`_basenode.py` lines
263-360, 398-451, `cdatanode.py` lines 62-75).

`_check_replacement` tests `if self._replacement_node:` - Python *truthiness*,
not an `is not None` test.  An `XMLCDATANode` is a `str` subclass and an
`XMLDictNode` an `OrderedDict` subclass, so a replacement node holding an
empty string / empty dict / empty list is falsy even though it is not `None`.
-/

/-- What a `_replacement_node` attribute can hold, with enough structure to
decide Python truthiness: a CDATA node is truthy iff its string is non-empty,
a dict/list node iff it has members. -/
inductive ReplacementRef where
  | cdataNode (text : String)
  | dictNode (size : Nat)
  | listNode (size : Nat)
  deriving Repr, DecidableEq

/-- Python truthiness of a node object used as a condition. -/
def ReplacementRef.truthy : ReplacementRef → Bool
  | .cdataNode t => t ≠ ""
  | .dictNode n => n ≠ 0
  | .listNode n => n ≠ 0

/-- Exceptions raised by the node accessors. -/
inductive PyExc where
  | attributeError (msg : String)
  | keyError (key : String)
  deriving Repr, DecidableEq

/-- Embedding of `XMLNodeBase._check_replacement` (`_basenode.py` lines
274-280): raise `AttributeError` when `self._replacement_node` is *truthy*. -/
def checkReplacement (repl : Option ReplacementRef) : Except PyExc Unit :=
  if (repl.map ReplacementRef.truthy).getD false then
    .error (.attributeError
      ("Attempt to modify an out-of-date node. " ++
       "Use get_current_node() to update the reference."))
  else
    .ok ()

/-- The data of one node relevant to the attribute/CDATA accessors: its
`text`, its `xml_attrs` ordered dictionary, and its `_replacement_node`. -/
structure AttrNode where
  text : String
  xmlAttrs : List (String × String)
  repl : Option ReplacementRef
  deriving Repr, DecidableEq

/-- `OrderedDict` assignment `d[k] = v`: overwrite in place if the key
exists (keeping its position), else append. -/
def odSet {α : Type} (d : List (String × α)) (k : String) (v : α) :
    List (String × α) :=
  match d with
  | [] => [(k, v)]
  | (k', v') :: rest =>
    if k' = k then (k', v) :: rest else (k', v') :: odSet rest k v

/-- `OrderedDict` lookup `d[k]` (`none` when the key is absent). -/
def odGet {α : Type} (d : List (String × α)) (k : String) : Option α :=
  match d with
  | [] => none
  | (k', v') :: rest => if k' = k then some v' else odGet rest k

/-- `OrderedDict` deletion `del d[k]`, total form: removes the first
occurrence of the key, returns the dictionary unchanged when absent. -/
def odDelete {α : Type} (d : List (String × α)) (k : String) :
    List (String × α) :=
  match d with
  | [] => []
  | (k', v') :: rest =>
    if k' = k then rest else (k', v') :: odDelete rest k

/-- `OrderedDict` deletion `del d[k]` (`none` when the key is absent, where
Python raises `KeyError`). -/
def odDel {α : Type} (d : List (String × α)) (k : String) :
    Option (List (String × α)) :=
  match d with
  | [] => none
  | (k', v') :: rest =>
    if k' = k then some rest
    else (odDel rest k).map (fun r => (k', v') :: r)

/-- Embedding of `XMLNodeBase.set_xml_attr` (`_basenode.py` lines 282-302):
`_check_replacement`, then `self.xml_attrs[attr] = val`. -/
def setXmlAttr (n : AttrNode) (attr val : String) : Except PyExc AttrNode := do
  let _ ← checkReplacement n.repl
  .ok { n with xmlAttrs := odSet n.xmlAttrs attr val }

/-- Embedding of `XMLNodeBase.delete_xml_attr` (`_basenode.py` lines
342-360): `_check_replacement`, then `del self.xml_attrs[attr]`. -/
def deleteXmlAttr (n : AttrNode) (attr : String) : Except PyExc AttrNode := do
  let _ ← checkReplacement n.repl
  match odDel n.xmlAttrs attr with
  | none => .error (.keyError attr)
  | some d => .ok { n with xmlAttrs := d }

/-- Embedding of `XMLNodeBase.get_xml_attr` (`_basenode.py` lines 304-327):
return `self.xml_attrs[attr]`, or `defval` when given, else `KeyError`.
No staleness check is performed. -/
def getXmlAttr (n : AttrNode) (attr : String) (defval : Option String) :
    Except PyExc String :=
  match odGet n.xmlAttrs attr with
  | some v => .ok v
  | none =>
    match defval with
    | some d => .ok d
    | none => .error (.keyError attr)

/-- Embedding of `XMLNodeBase.get_xml_attrs` (`_basenode.py` lines 329-340):
returns the attribute dictionary itself; no staleness check. -/
def getXmlAttrs (n : AttrNode) : List (String × String) :=
  n.xmlAttrs

/-- Embedding of `XMLNodeBase.has_xml_attrs` (`_basenode.py` lines 263-272):
`len(self.xml_attrs) > 0`; no staleness check. -/
def hasXmlAttrs (n : AttrNode) : Bool :=
  n.xmlAttrs.length > 0

/-- Embedding of `XMLNodeBase.get_cdata` (`_basenode.py` lines 445-451,
and `XMLCDATANode.get_cdata`, `cdatanode.py` lines 74-75, whose
`_unicode(self)` is the node's own retained string): returns `self.text`;
no staleness check. -/
def getCdata (n : AttrNode) : String :=
  n.text

/-- Embedding of the base-class `XMLNodeBase.set_cdata` (`_basenode.py` lines
362-401), the in-place variant used by dict nodes: `_check_replacement`, then
`self.text = cdata`. -/
def setCdataBase (n : AttrNode) (cdata : String) : Except PyExc AttrNode := do
  let _ ← checkReplacement n.repl
  .ok { n with text := cdata }

/-- Embedding of the base-class `XMLNodeBase.append_cdata` (`_basenode.py`
lines 403-443): `_check_replacement`, then `self.text = self.text + cdata`. -/
def appendCdataBase (n : AttrNode) (cdata : String) : Except PyExc AttrNode := do
  let _ ← checkReplacement n.repl
  .ok { n with text := n.text ++ cdata }

/-! ## The node tree

A structural model of the three node classes.  Each node carries its Python
identity (`id`), its `tag` and `key` bookkeeping attributes, and its variant
payload.  XML attributes are omitted here: none of the tree-structure
operations modelled below reads them (they are modelled on `AttrNode` above).
Parent back-pointers are implicit in tree containment: the `parent`/`update`
bookkeeping writes of the source do not change any container's contents.
-/

/-- A node of the XML tree: `cdata` is `XMLCDATANode` (its Python string value
is `text`), `dnode` is `XMLDictNode` (with its `text` and `_ignore_level`
attributes), `lnode` is `XMLListNode`. -/
inductive XNode where
  | cdata (id : Nat) (tag : Option String) (key : Option String) (text : String)
  | dnode (id : Nat) (tag : Option String) (key : Option String) (text : String)
      (ignoreLevel : Bool) (entries : List (String × XNode))
  | lnode (id : Nat) (tag : Option String) (key : Option String)
      (items : List XNode)
  deriving Repr

/-- The node's `key` attribute. -/
def XNode.keyField : XNode → Option String
  | .cdata _ _ k _ => k
  | .dnode _ _ k _ _ _ => k
  | .lnode _ _ k _ => k

/-- The node's `tag` attribute. -/
def XNode.tagField : XNode → Option String
  | .cdata _ t _ _ => t
  | .dnode _ t _ _ _ _ => t
  | .lnode _ t _ _ => t

/-- Assignment to the node's `key` attribute (`node.key = k`). -/
def XNode.setKeyField : XNode → Option String → XNode
  | .cdata i t _ x, k => .cdata i t k x
  | .dnode i t _ x g e, k => .dnode i t k x g e
  | .lnode i t _ its, k => .lnode i t k its

/-- Assignment to the node's `tag` attribute (`node.tag = t`). -/
def XNode.setTagField : XNode → Option String → XNode
  | .cdata i _ k x, t => .cdata i t k x
  | .dnode i _ k x g e, t => .dnode i t k x g e
  | .lnode i _ k its, t => .lnode i t k its

/-- Python `len(node)`: string length for a CDATA node (a `str` subclass),
member count for dict and list nodes. -/
def XNode.pyLen : XNode → Nat
  | .cdata _ _ _ x => x.length
  | .dnode _ _ _ _ _ e => e.length
  | .lnode _ _ _ its => its.length

/-- Python `==` on nodes.  None of the node classes defines `__eq__`, so
equality is inherited from `str` (CDATA nodes: string-value comparison),
`OrderedDict` (dict nodes: keys and values, order-sensitively, ignoring
`tag`/`key`/`text`/attribute object attributes), and `list` (list nodes:
element-wise).  Values of different variants compare unequal.  Object
identity (`id`) does not participate. -/
def pyEq : XNode → XNode → Bool
  | .cdata _ _ _ t1, .cdata _ _ _ t2 => t1 = t2
  | .dnode _ _ _ _ _ e1, .dnode _ _ _ _ _ e2 => pyEqEntries e1 e2
  | .lnode _ _ _ l1, .lnode _ _ _ l2 => pyEqItems l1 l2
  | _, _ => false
where
  /-- `OrderedDict.__eq__` between two node dictionaries. -/
  pyEqEntries : List (String × XNode) → List (String × XNode) → Bool
    | [], [] => true
    | (k1, v1) :: r1, (k2, v2) :: r2 => k1 = k2 && pyEq v1 v2 && pyEqEntries r1 r2
    | _, _ => false
  /-- `list.__eq__` between two node lists. -/
  pyEqItems : List XNode → List XNode → Bool
    | [], [] => true
    | x :: xs, y :: ys => pyEq x y && pyEqItems xs ys
    | _, _ => false

/-! ## `XMLDictNode.add_node`

Embedding of `dictnode.py` lines 56-104.
-/

/-- Truthiness of an optional string (Python `if key:`: `None` and the empty
string are falsy). -/
def truthyOptStr : Option String → Bool
  | none => false
  | some s => s ≠ ""

/-- Embedding of `XMLDictNode.add_node` (`dictnode.py` lines 56-104), acting
on the dict's ordered entries.

* `selfRepl` is the dict's `_replacement_node` (checked first);
* `tag`, `key`, `text`, `newNodeArg`, `update` are the call's arguments
  (`newNodeArg = none` is Python `new_node=None`; the `TypeError` branch for
  a non-Node `new_node` is unreachable here because the model types the
  argument);
* `freshId` identifies the `XMLCDATANode` allocated when `new_node is None`,
  `listId` the `XMLListNode` allocated when a duplicate key is wrapped.

The result is the updated entry list together with the returned node.  The
`new_node.parent = ...` writes of the source set back-pointers only and do
not change any container's contents. -/
def dictAddNode (selfRepl : Option ReplacementRef)
    (entries : List (String × XNode)) (tag : String) (key : Option String)
    (text : String) (newNodeArg : Option XNode) (update : Bool)
    (freshId listId : Nat) :
    Except PyExc (List (String × XNode) × XNode) :=
  match checkReplacement selfRepl with
  | .error e => .error e
  | .ok _ =>
  -- Determine the new node and the dictionary key, following the
  -- `if new_node is None: ... else: ...` branches of the source.
  let (effKey, newNode) : String × XNode :=
    match newNodeArg with
    | none =>
      -- `new_node = XMLCDATANode(text, tag=tag, **kwargs)`: the constructor
      -- defaults the node's key to its tag.
      let node0 : XNode := .cdata freshId (some tag) (some tag) text
      match key with
      | some k =>
        if k ≠ "" then (k, if update then node0.setKeyField (some k) else node0)
        else (tag, node0)
      | none => (tag, node0)
    | some n =>
      let (k2, n2) : String × XNode :=
        match key with
        | some k =>
          if k ≠ "" then (k, if update then n.setKeyField (some k) else n)
          else if truthyOptStr n.keyField then ((n.keyField).getD "", n)
          else (tag, n)
        | none =>
          if truthyOptStr n.keyField then ((n.keyField).getD "", n)
          else (tag, n)
      (k2, if update then n2.setTagField (some tag) else n2)
  -- `if key in self: ...` - wrap a non-list entry in a fresh XMLListNode,
  -- then append; `else:` - plain insertion.
  match odGet entries effKey with
  | some old =>
    let wrapped : List (String × XNode) :=
      match old with
      | .lnode _ _ _ _ => entries
      | _ => odSet entries effKey
          (.lnode listId (some tag) (some effKey) [old])
    -- `self[key].append(new_node)`
    let appended : List (String × XNode) :=
      match odGet wrapped effKey with
      | some (.lnode i t k its) => odSet wrapped effKey (.lnode i t k (its ++ [newNode]))
      | _ => wrapped
    .ok (appended, newNode)
  | none =>
    .ok (entries ++ [(effKey, newNode)], newNode)

/-! ## `XMLNodeBase._replace_node`

Embedding of `_basenode.py` lines 630-710.  The operation works on the
contents of `self.parent`; the parent's own container (the grandparent) is
needed only for the empty-list cascade of Case 2 and is supplied by the
driver `replaceInListThenDict` below.
-/

/-- The first index of a list member that compares Python-`==` to `self`
(the scan of `for i in range(0, len(val))` / Case 2). -/
def firstPyEqIdx (items : List XNode) (self : XNode) : Option Nat :=
  items.findIdx? (fun x => pyEq x self)

/-- Whether an entry of the parent dictionary stops the Plan-B scan: the
value compares `==` to `self`, or it is an `XMLListNode` one of whose
members does. -/
def planBHit (v self : XNode) : Bool :=
  pyEq v self ||
    (match v with
     | .lnode _ _ _ its => (firstPyEqIdx its self).isSome
     | _ => false)

/-- Case 1 of `XMLNodeBase._replace_node` (`_basenode.py` lines 642-689), the
dictionary-parent case, followed by the terminal `raise AttributeError` of
line 710 (for a dictionary parent, Case 2's integer indexing raises
`KeyError`, swallowed by the bare `except`, so falling through Case 1 always
ends at line 710).

* Plan A: look up `self.key`; if the slot compares `==` to `self`, replace or
  delete it (no key correction).
* Plan B: scan entries in order; at the first entry equal to `self`, correct
  the new node's key to the slot's key and install it, or delete the slot; at
  the first entry that is a list containing a member equal to `self`, replace
  or delete that member; when the deletion empties the list, the list deletes
  itself from its own parent (`val._replace_node(None)` - the recursive call,
  which consumes `fuel`; an `AttributeError` it raises is swallowed by the
  bare `except` and surfaces as line 710's `AttributeError`).

`selfKey` is `self.key`; a `none` key is never found in the dictionary
(model keys are strings). -/
def replaceInDict : Nat → List (String × XNode) → Option String → XNode →
    Option XNode → Except PyExc (List (String × XNode))
  | 0, _, _, _, _ =>
    -- fuel exhaustion stands for a non-terminating cascade; unreachable for
    -- the fuel supplied by the theorems below
    .error (.attributeError "model: out of fuel")
  | fuel + 1, entries, selfKey, self, newnode =>
    let planA : Option (Except PyExc (List (String × XNode))) :=
      match selfKey with
      | none => none
      | some k =>
        match odGet entries k with
        | none => none
        | some v =>
          if pyEq v self then
            match newnode with
            | some n => some (.ok (odSet entries k n))
            | none => some (.ok (odDelete entries k))
          else none
    match planA with
    | some r => r
    | none =>
      match entries.find? (fun e => planBHit e.2 self) with
      | none => .error (.attributeError "Unable to find existing node in parent")
      | some (k, v) =>
        if pyEq v self then
          match newnode with
          | some n => .ok (odSet entries k (n.setKeyField (some k)))
          | none => .ok (odDelete entries k)
        else
          match v with
          | .lnode lid lt lk its =>
            match firstPyEqIdx its self with
            | none => .error (.attributeError "Unable to find existing node in parent")
            | some i =>
              match newnode with
              | some n =>
                .ok (odSet entries k (.lnode lid lt lk (its.set i (n.setKeyField (some k)))))
              | none =>
                let its' := its.eraseIdx i
                if its'.length = 0 then
                  match replaceInDict fuel
                      (odSet entries k (.lnode lid lt lk [])) lk
                      (.lnode lid lt lk []) none with
                  | .ok r => .ok r
                  | .error _ =>
                    .error (.attributeError "Unable to find existing node in parent")
                else
                  .ok (odSet entries k (.lnode lid lt lk its'))
          | _ => .error (.attributeError "Unable to find existing node in parent")

/-- Case 2 of `XMLNodeBase._replace_node` (`_basenode.py` lines 690-709), the
list-parent case.  For a list parent, Case 1 always falls through without
effect (its dictionary operations raise and are swallowed by the bare
`except`).  The scan replaces or deletes the first member that compares `==`
to `self`; no key correction is performed here.  The returned `Bool` reports
that a deletion emptied the list, which triggers
`self.parent._replace_node(None)` in the source (performed by the driver
below, since it needs the grandparent). -/
def replaceInList (items : List XNode) (self : XNode) (newnode : Option XNode) :
    Except PyExc (List XNode × Bool) :=
  match firstPyEqIdx items self with
  | none => .error (.attributeError "Unable to find existing node in parent")
  | some i =>
    match newnode with
    | some n => .ok (items.set i n, false)
    | none =>
      let items' := items.eraseIdx i
      .ok (items', items'.length = 0)

/-- The parent reference of a node for the entry checks of `_replace_node`. -/
inductive ParentRef where
  | null
  | dictP (entries : List (String × XNode))
  | listP (items : List XNode)
  deriving Repr

/-- The updated container produced by `_replace_node`. -/
inductive ReplaceOutcome where
  | dictUpdated (entries : List (String × XNode))
  | listUpdated (items : List XNode) (becameEmpty : Bool)
  deriving Repr

/-- Embedding of `XMLNodeBase._replace_node` (`_basenode.py` lines 630-710):
the `_check_replacement` guard, the null-parent guard, then Case 1 or Case 2
according to the parent's type.  (The `self._replacement_node = newnode`
write of lines 640-641 changes only `self`'s forwarding link, not any
container; it is not part of the returned container state.) -/
def replaceNode (fuel : Nat) (selfRepl : Option ReplacementRef)
    (selfKey : Option String) (self : XNode) (parent : ParentRef)
    (newnode : Option XNode) : Except PyExc ReplaceOutcome :=
  match checkReplacement selfRepl with
  | .error e => .error e
  | .ok _ =>
  match parent with
  | .null => .error (.attributeError "Attempt to modify root document")
  | .dictP entries =>
    (replaceInDict fuel entries selfKey self newnode).map .dictUpdated
  | .listP items =>
    (replaceInList items self newnode).map (fun p => .listUpdated p.1 p.2)

/-- Driver for a node whose parent is an `XMLListNode` stored in a
grandparent `XMLDictNode` under slot `gk`: Case 2 edits the shared list
object in place (so the grandparent's slot holds the updated items), and when
the list becomes empty, `self.parent._replace_node(None)` makes the emptied
list delete itself from the grandparent (an `AttributeError` raised by that
inner call is swallowed by Case 2's enclosing bare `except` and surfaces as
line 710's `AttributeError`).  `lid`/`ltag`/`lkey` are the list node's own
attributes. -/
def replaceInListThenDict (fuel : Nat) (gpEntries : List (String × XNode))
    (gk : String) (lid : Nat) (ltag lkey : Option String)
    (items : List XNode) (self : XNode) (newnode : Option XNode) :
    Except PyExc (List (String × XNode)) :=
  match replaceInList items self newnode with
  | .error e => .error e
  | .ok (items', becameEmpty) =>
    let gp' := odSet gpEntries gk (.lnode lid ltag lkey items')
    if becameEmpty then
      match replaceInDict fuel gp' lkey (.lnode lid ltag lkey []) none with
      | .ok gp2 => .ok gp2
      | .error _ =>
        .error (.attributeError "Unable to find existing node in parent")
    else
      .ok gp'

/-! ## Serializer: `XMLNodeBase.emit_handler`

Embedding of the `full_document` logic of `_basenode.py` lines 962-1063.
-/

/-- The number of top-level elements the tree serializes to, read off the
`_emit_handler` implementations: a CDATA node emits one element
(`cdatanode.py` lines 81-88); a dict node with a `None` tag at depth 0, or
with `_ignore_level` set, emits its children directly as top-level siblings
(`dictnode.py` lines 143-156), a tagged dict emits one element; a list node
emits each member at the same depth (`listnode.py` lines 253-259). -/
def topLevelCount : XNode → Nat
  | .cdata _ _ _ _ => 1
  | .dnode _ tag _ _ ign entries =>
    if tag = none || ign then countEntries entries else 1
  | .lnode _ _ _ items => countItems items
where
  countEntries : List (String × XNode) → Nat
    | [] => 0
    | e :: rest => topLevelCount e.2 + countEntries rest
  countItems : List XNode → Nat
    | [] => 0
    | x :: rest => topLevelCount x + countItems rest

/-- Whether no dict node of the tree has its internal `_ignore_level` flag
set (the flag is set by `XMLListNode.dict`, `listnode.py` line 158). -/
def noIgnoreLevel : XNode → Bool
  | .cdata _ _ _ _ => true
  | .dnode _ _ _ _ ign entries => !ign && goEntries entries
  | .lnode _ _ _ items => goItems items
where
  goEntries : List (String × XNode) → Bool
    | [] => true
    | e :: rest => noIgnoreLevel e.2 && goEntries rest
  goItems : List XNode → Bool
    | [] => true
    | x :: rest => noIgnoreLevel x && goItems rest

/-- The `full_document_ok` computation of `XMLNodeBase.emit_handler`
(`_basenode.py` lines 995-1036), a loop that walks down through transparent
containers.  Branch order follows the source: a CDATA node is always OK; a
list with more than one member is not; an empty node is OK; a tagless dict or
a (single-member) list descends into its only child, or is not OK when it has
several children; a node with a (string) tag is OK.  (The `not
isinstance(curnode, XMLNodeBase)` branch is unreachable in the model, whose
children are all nodes, and every model tag is `None` or a string.)  The
`_ignore_level` flag is *not* consulted. -/
def fullDocumentOk : XNode → Bool
  | .cdata _ _ _ _ => true
  | .lnode _ _ _ items =>
    match items with
    | [] => true
    | [x] => fullDocumentOk x
    | _ => false
  | .dnode _ tag _ _ _ entries =>
    match entries with
    | [] => true
    | [e] =>
      match tag with
      | none => fullDocumentOk e.2
      | some _ => true
    | _ =>
      match tag with
      | none => false
      | some _ => true

/-- The `full_document` decision of `XMLNodeBase.emit_handler` (`_basenode.py`
lines 1038-1063): with an explicit `full_document=True` and a tree that
cannot be a full document, raise `ValueError`; with `full_document` unset,
default to `full_document_ok`, refined by the root guess of lines 1048-1056
(which needs `self`'s parent).  The returned `Bool` is whether
`startDocument`/`endDocument` are invoked around the emission. -/
def emitHandlerDecision (n : XNode) (parent : Option XNode)
    (fullDocument : Option Bool) : Except String Bool :=
  let ok := fullDocumentOk n
  match fullDocument with
  | some fd =>
    if fd && !ok then
      .error ("Document will have more than one root node. " ++
              "The full_document argument must be False.")
    else
      .ok fd
  | none =>
    let fd := ok
    let fd :=
      if fd then
        match n.tagField, parent with
        | some _, some p =>
          if p.tagField ≠ none || p.pyLen > 1 then false else true
        | _, _ => fd
      else fd
    .ok fd

/-! ## Parser wrapper: the empty-document special case

Embedding of `Parser.__call__` (`xmlparser.py` lines 298-320) and the final
chunk of `Parser._parse_generator` (`xmlparser.py` lines 246-271).
-/

/-- An `expat.ExpatError`, abstracted to the one test the wrapper applies:
whether `str(e)` starts with `expat.errors.XML_ERROR_NO_ELEMENTS + ":"`
(the tokenizer's "no elements" condition; the constant itself belongs to the
external tokenizer). -/
structure ExpatFailure where
  isNoElements : Bool
  deriving Repr, DecidableEq

/-- The handler's initial `self.root` / `self.item`: `XMLDictNode()` - a
tagless, keyless, empty dict node (`_parsehandler.py` lines 40-41). -/
def emptyRoot : XNode := .dnode 0 none none "" false []

/-- Whether a SAX event marks `processing_started` (set by `start_element`
and `characters`, `_parsehandler.py` lines 145 and 191; `end_element` does
not set it). -/
inductive SaxEvent where
  | startElement (name : String)
  | characters (data : String)
  | endElement (name : String)
  deriving Repr, DecidableEq

/-- The handler's `processing_started` flag after a run: initially `False`,
set by any `start_element` or `characters` event. -/
def processingStartedAfter (events : List SaxEvent) : Bool :=
  events.any fun e =>
    match e with
    | .startElement _ => true
    | .characters _ => true
    | .endElement _ => false

/-- The full-tree branch of `Parser.__call__` (`xmlparser.py` lines 300-320):
`self._parser.Parse` either succeeds or raises an `ExpatError`; the error is
suppressed exactly when it is the "no elements" error and the handler's
`processing_started` is false; the call then returns `self._handler.item`. -/
def parserCallFull (result : Option ExpatFailure) (processingStarted : Bool)
    (item : XNode) : Except ExpatFailure XNode :=
  match result with
  | none => .ok item
  | some e =>
    if e.isNoElements && !processingStarted then .ok item
    else .error e

/-- The final chunk of `Parser._parse_generator` (`xmlparser.py` lines
246-271): at EOF, a "no elements" `ExpatError` is suppressed when nothing was
processed; then `end_document` runs (asserting the element path is empty,
`_parsehandler.py` line 200) and performs the final
`_check_generator_matches` on the empty path, whose appended match (if any)
is what `pop_matches` yields. -/
def parserGenLastChunk (result : Option ExpatFailure) (processingStarted : Bool)
    (matchDepth : Int) (tests : List GMatch) (item : Nat) :
    Except ExpatFailure (List (String × String × Nat)) :=
  match result with
  | none => .ok (checkGeneratorMatches matchDepth tests [] item).toList
  | some e =>
    if e.isNoElements && !processingStarted then
      .ok (checkGeneratorMatches matchDepth tests [] item).toList
    else .error e

/-! # Theorems -/

/-! ## Helper lemmas: `String.intercalate` and the joined path -/

theorem intercalateGo_append (s b : String) :
    ∀ (l : List String) (acc : String),
      String.intercalate.go (b ++ acc) s l = b ++ String.intercalate.go acc s l := by
  intro l
  induction l with
  | nil => intro acc; simp [String.intercalate.go]
  | cons a as ih =>
    intro acc
    show String.intercalate.go (b ++ acc ++ s ++ a) s as =
      b ++ String.intercalate.go (acc ++ s ++ a) s as
    rw [String.append_assoc, String.append_assoc, ← ih (acc ++ s ++ a),
        String.append_assoc]

theorem joinedPath_eq (path : List String) :
    joinedPath path =
      if path = [] then "/" else "/" ++ String.intercalate "/" path := by
  match path with
  | [] => rfl
  | a :: as =>
    show (if String.intercalate "/" ("" :: a :: as) = "" then "/"
          else String.intercalate "/" ("" :: a :: as)) =
      if (a :: as : List String) = [] then "/"
      else "/" ++ String.intercalate "/" (a :: as)
    have key : String.intercalate "/" ("" :: a :: as) =
        "/" ++ String.intercalate "/" (a :: as) := by
      show String.intercalate.go ("/" ++ a) "/" as =
        "/" ++ String.intercalate.go a "/" as
      exact intercalateGo_append "/" "/" as a
    rw [key]
    have hne : ("/" ++ String.intercalate "/" (a :: as)) ≠ "" := by
      intro hcontra
      have hlen := congrArg String.length hcontra
      rw [String.length_append] at hlen
      have h1 : ("/" : String).length = 1 := rfl
      have h0 : ("" : String).length = 0 := rfl
      rw [h1, h0] at hlen
      omega
    simp [hne]

/-! ## Helper lemmas: invariants of `_parse_generator_matches` -/

theorem dropLast_ne_nil_of_head_ne {l1 : List String} {last : String}
    (hlast : l1.getLast? = some last) (hl : last = "")
    (hhead : ¬ l1.head? = some "") : l1.dropLast ≠ [] := by
  intro hnil
  have hne : l1 ≠ [] := by
    intro hc; rw [hc] at hlast; simp at hlast
  cases l1 with
  | nil => exact hne rfl
  | cons x xs =>
    cases xs with
    | nil =>
      simp at hlast
      apply hhead
      simp [hlast, hl]
    | cons y rest =>
      have hlen := congrArg List.length hnil
      rw [List.length_dropLast] at hlen
      simp only [List.length_cons, List.length_nil] at hlen
      omega

theorem parseGeneratorMatches_ok_facts {ps : String} {m : GMatch}
    (h : parseGeneratorMatches ps = .ok m) :
    m.depth = m.elements.length ∧ (∀ e ∈ m.elements, e ≠ "") ∧
      (m.rooted = false → m.elements ≠ []) := by
  simp only [parseGeneratorMatches] at h
  by_cases hhead : (pySplitSlash ps).head? = some ""
  · simp only [if_pos hhead] at h
    split at h
    · exact absurd h (by simp)
    rename_i last hlast
    have hdec : decide ((pySplitSlash ps).head? = some "") = true := by
      simp [hhead]
    split at h
    all_goals split at h
    · exact absurd h (by simp)
    · rename_i hl hany
      simp only [Except.ok.injEq] at h
      subst h
      refine ⟨by simp, ?_, ?_⟩
      · intro e he hc
        subst hc
        simp at hany
        exact hany he
      · intro hr
        rw [hdec] at hr
        exact absurd hr (by simp)
    · exact absurd h (by simp)
    · rename_i hl hany
      simp only [Except.ok.injEq] at h
      subst h
      refine ⟨by simp, ?_, ?_⟩
      · intro e he hc
        subst hc
        simp at hany
        exact hany he
      · intro hr
        rw [hdec] at hr
        exact absurd hr (by simp)
  · simp only [if_neg hhead] at h
    split at h
    · exact absurd h (by simp)
    rename_i last hlast
    split at h
    all_goals split at h
    · exact absurd h (by simp)
    · rename_i hl hany
      simp only [Except.ok.injEq] at h
      subst h
      refine ⟨by simp, ?_, ?_⟩
      · intro e he hc
        subst hc
        simp at hany
        exact hany he
      · intro hr hnil
        exact dropLast_ne_nil_of_head_ne hlast hl hhead hnil
    · exact absurd h (by simp)
    · rename_i hl hany
      simp only [Except.ok.injEq] at h
      subst h
      refine ⟨by simp, ?_, ?_⟩
      · intro e he hc
        subst hc
        simp at hany
        exact hany he
      · intro hr hnil
        have hnil2 : pySplitSlash ps = [] := hnil
        rw [hnil2] at hlast
        simp at hlast

/-! ## Claim C7: pattern configuration errors -/

/-- **C7** (counterexample): the claim says every pattern consisting only of
empty segments (for example the single `"/"`) raises a configuration-time
`Warning`; but `_parse_generator_matches` accepts `"/"` without error, as an
anchored pattern of depth 0. -/
theorem c7_counterexample_slash_accepted :
    parseGeneratorMatches "/" =
      .ok { rooted := true, elements := [], depth := 0, matchString := "/" } := by
  decide

/-- **C7** (amended): patterns of two or more slashes with nothing between
(`"//"`, `"///"`) and patterns with an empty interior segment (`"a//b"`)
raise a `Warning` before any parsing; the empty pattern string raises an
`IndexError` (not a `Warning`); the single `"/"` is accepted as an anchored
depth-0 pattern; a single trailing slash is dropped without error, and a
leading slash only marks the pattern as anchored; every accepted pattern has
no empty segments. -/
theorem c7_pattern_config_errors :
    parseGeneratorMatches "//" =
      .error (.warning "Match condition contains empty path elements (//)")
    ∧ parseGeneratorMatches "///" =
      .error (.warning "Match condition contains empty path elements (///)")
    ∧ parseGeneratorMatches "a//b" =
      .error (.warning "Match condition contains empty path elements (a//b)")
    ∧ parseGeneratorMatches "" = .error .indexError
    ∧ parseGeneratorMatches "/" =
      .ok { rooted := true, elements := [], depth := 0, matchString := "/" }
    ∧ parseGeneratorMatches "a/b/" =
      .ok { rooted := false, elements := ["a", "b"], depth := 2, matchString := "a/b/" }
    ∧ parseGeneratorMatches "/a/b" =
      .ok { rooted := true, elements := ["a", "b"], depth := 2, matchString := "/a/b" }
    ∧ (∀ ps m, parseGeneratorMatches ps = .ok m → ∀ e ∈ m.elements, e ≠ "") := by
  refine ⟨by decide, by decide, by decide, by decide, by decide, by decide,
    by decide, ?_⟩
  intro ps m h
  exact (parseGeneratorMatches_ok_facts h).2.1

/-! ## Claim C5: first-match-wins -/

theorem checkGeneratorLoop_cons (path : List String) (item : Nat) (m : GMatch)
    (rest : List GMatch) :
    checkGeneratorLoop path item (m :: rest) =
      if matchesTest m path then some (joinedPath path, m.matchString, item)
      else checkGeneratorLoop path item rest := by
  rw [checkGeneratorLoop]
  unfold matchesTest
  by_cases hr : m.rooted = true
  · by_cases hl : path.length = m.depth
    · simp [hr, hl]
    · simp [hr, hl]
  · have hrf : m.rooted = false := by simpa using hr
    by_cases hl : path.length < m.depth
    · simp [hrf, hl]
    · simp [hrf, hl]

/-- **C5**: at each end-element check, at most one match tuple is appended:
the patterns are tested in declaration order and the first one that matches
produces the single emission, tagged with that pattern's string; later
patterns are not checked (the `Option.map` over `List.find?` of the
per-pattern test is exactly this behavior). -/
theorem c5_first_match_wins (matchDepth : Int) (tests : List GMatch)
    (path : List String) (item : Nat) :
    checkGeneratorMatches matchDepth tests path item =
      if matchDepth > (path.length : Int) then none
      else (tests.find? (fun m => matchesTest m path)).map
        (fun m => (joinedPath path, m.matchString, item)) := by
  unfold checkGeneratorMatches
  by_cases hg : matchDepth > (path.length : Int)
  · simp [hg]
  · rw [if_neg hg, if_neg hg]
    induction tests with
    | nil => rfl
    | cons m rest ih =>
      rw [checkGeneratorLoop_cons]
      by_cases hm : matchesTest m path = true
      · rw [if_pos hm,
          show List.find? (fun m => matchesTest m path) (m :: rest) = some m from
            List.find?_cons_of_pos rest hm]
        rfl
      · rw [if_neg hm,
          show List.find? (fun m => matchesTest m path) (m :: rest) =
              List.find? (fun m => matchesTest m path) rest from
            List.find?_cons_of_neg rest (by simpa using hm), ih]

/-! ## Claim C4: anchored and suffix pattern semantics -/

theorem pySliceLast_full {depth : Nat} {path : List String}
    (h : depth = path.length) : pySliceLast depth path = path := by
  unfold pySliceLast
  by_cases h0 : depth = 0
  · simp [h0]
  · rw [if_neg h0, h, Nat.sub_self, List.drop_zero]

/-- **C4**: at an end-element check with element path `path`: an anchored
pattern with segment list `s` matches iff `len(path) = len(s)` and
`path = s`; a suffix pattern with segment list `s` matches iff
`len(path) >= len(s)` and the last `len(s)` elements of `path` equal `s`;
and the emitted path string is `"/"` followed by the path segments joined
with `"/"`, or the literal `"/"` for the document root. -/
theorem c4_match_semantics (ps : String) (m : GMatch) (path : List String)
    (hok : parseGeneratorMatches ps = .ok m) :
    (m.rooted = true →
      (matchesTest m path = true ↔
        (path.length = m.elements.length ∧ path = m.elements)))
    ∧ (m.rooted = false →
      (matchesTest m path = true ↔
        (m.elements.length ≤ path.length ∧
          path.drop (path.length - m.elements.length) = m.elements)))
    ∧ joinedPath path = (if path = [] then "/" else "/" ++ String.intercalate "/" path) := by
  obtain ⟨hd, hne, hsuf⟩ := parseGeneratorMatches_ok_facts hok
  refine ⟨?_, ?_, joinedPath_eq path⟩
  · intro hr
    unfold matchesTest
    rw [hr]
    by_cases hlen : path.length = m.depth
    · have c1 : (true && path.length ≠ m.depth : Bool) = false := by simp [hlen]
      have c2 : (!(true : Bool) && path.length < m.depth : Bool) = false := by simp
      rw [c1, if_neg (by simp), c2, if_neg (by simp)]
      rw [pySliceLast_full (by omega)]
      constructor
      · intro h3
        have : m.elements = path := by simpa using h3
        exact ⟨by omega, this.symm⟩
      · intro ⟨_, h3⟩
        simp [h3]
    · have c1 : (true && path.length ≠ m.depth : Bool) = true := by simp [hlen]
      rw [if_pos (by simp [hlen])]
      constructor
      · intro h3; exact absurd h3 (by simp)
      · intro ⟨h3, h4⟩
        subst h4
        omega
  · intro hr
    unfold matchesTest
    rw [hr]
    have c1 : (false && path.length ≠ m.depth : Bool) = false := by simp
    rw [c1, if_neg (by simp)]
    by_cases hlen : path.length < m.depth
    · have c2 : (!(false : Bool) && path.length < m.depth : Bool) = true := by
        simp [hlen]
      rw [if_pos (by simp [hlen])]
      constructor
      · intro h3; exact absurd h3 (by simp)
      · intro ⟨h3, _⟩
        omega
    · have c2 : (!(false : Bool) && path.length < m.depth : Bool) = false := by
        simp [hlen]
      rw [c2, if_neg (by simp)]
      have hdne : m.depth ≠ 0 := by
        have := hsuf hr
        intro h0
        rw [h0] at hd
        exact this (List.eq_nil_of_length_eq_zero hd.symm)
      unfold pySliceLast
      rw [if_neg hdne, ← hd]
      constructor
      · intro h3
        have h4 : m.elements = path.drop (path.length - m.depth) := by simpa using h3
        exact ⟨by omega, h4.symm⟩
      · intro ⟨h3, h4⟩
        simp [h4.symm]


/-! ## Claim C1: the replacement chain and `get_current_node` -/

theorem getCurrentLoop_succ_node (f : Nat) (h : RHeap) (self j : Nat) :
    getCurrentLoop (f + 1) h self (.node j) =
      match h j with
      | none => some (.node j, h)
      | some x => getCurrentLoop f (h.set self (some x)) self x := rfl

theorem getCurrentLoop_succ_foreign (f : Nat) (h : RHeap) (self : Nat) :
    getCurrentLoop (f + 1) h self .foreign = some (.foreign, h) := rfl

theorem getCurrentLoop_chain (N : Nat) :
    ∀ (fuel k self : Nat) (h : RHeap),
      (∀ m, m ≠ self → h m = chainHeap N m) → self < k → k ≤ N →
      N - k < fuel →
      (getCurrentLoop fuel h self (.node k)).map Prod.fst =
        some (.node N) := by
  intro fuel
  induction fuel with
  | zero => intro k self h _ _ _ hf; omega
  | succ f ih =>
    intro k self h hagree hsk hkN hf
    by_cases hk : k = N
    · subst hk
      have hN : h k = none := by
        rw [hagree k (by omega)]
        simp [chainHeap]
      rw [getCurrentLoop_succ_node, hN]
      rfl
    · have hlt : k < N := lt_of_le_of_ne hkN hk
      have hkv : h k = some (.node (k + 1)) := by
        rw [hagree k (by omega)]
        simp [chainHeap, hlt]
      rw [getCurrentLoop_succ_node, hkv]
      exact ih (k + 1) self (h.set self (some (.node (k + 1))))
        (fun m hm => by rw [RHeap.set, if_neg hm]; exact hagree m hm)
        (by omega) (by omega) (by omega)

theorem getCurrentLoop_foreignChain (N : Nat) :
    ∀ (fuel k self : Nat) (h : RHeap),
      (∀ m, m ≠ self → h m = foreignChain N m) → self < k → k ≤ N →
      N - k + 1 < fuel →
      (getCurrentLoop fuel h self (.node k)).map Prod.fst =
        some PyRef.foreign := by
  intro fuel
  induction fuel with
  | zero => intro k self h _ _ _ hf; omega
  | succ f ih =>
    intro k self h hagree hsk hkN hf
    by_cases hk : k = N
    · subst hk
      have hN : h k = some .foreign := by
        rw [hagree k (by omega)]
        simp [foreignChain]
      rw [getCurrentLoop_succ_node, hN]
      have hf1 : 0 < f := by omega
      match f, hf1 with
      | f + 1, _ => rfl
    · have hlt : k < N := lt_of_le_of_ne hkN hk
      have hkv : h k = some (.node (k + 1)) := by
        rw [hagree k (by omega)]
        simp [foreignChain, hlt]
      rw [getCurrentLoop_succ_node, hkv]
      exact ih (k + 1) self (h.set self (some (.node (k + 1))))
        (fun m hm => by rw [RHeap.set, if_neg hm]; exact hagree m hm)
        (by omega) (by omega) (by omega)

theorem buildChain_eq (n : Nat) :
    (buildChain n).1 = chainHeap n ∧ (buildChain n).2 = n := by
  induction n with
  | zero =>
    constructor
    · funext i
      simp [buildChain, chainHeap]
    · rfl
  | succ n ih =>
    obtain ⟨h1, h2⟩ := ih
    constructor
    · show ((buildChain n).1.set (buildChain n).2 (some (.node (n + 1)))) = _
      rw [h1, h2]
      funext i
      rw [RHeap.set]
      by_cases hi : i = n
      · subst hi
        simp [chainHeap]
      · rw [if_neg hi]
        unfold chainHeap
        by_cases hlt : i < n
        · rw [if_pos hlt, if_pos (by omega)]
        · rw [if_neg hlt, if_neg (by omega)]
    · rfl

/-- **C1**: after `N ≥ 1` successive `set_cdata`/`append_cdata` calls, each
applied to the then-current node, `get_current_node` on the original node 0
and on every intermediate node `i ≤ N` returns the same final node `N` (node
`N` itself returns `self`, covered by `i = N`); a node whose replacement link
is unset returns itself; and on a chain whose last link holds a foreign
non-Node value the loop's exception is caught and the foreign value is
returned rather than an error (the model never produces an error outcome). -/
theorem c1_get_current_node_chain (N i : Nat) (hN : 1 ≤ N) (hi : i ≤ N) :
    (getCurrentNode (N + 1) (buildChain N).1 i).map Prod.fst =
      some (.node N)
    ∧ (∀ (h : RHeap) (self fuel : Nat), h self = none →
        getCurrentNode fuel h self = some (.node self, h))
    ∧ (getCurrentNode (N + 3) (foreignChain N) i).map Prod.fst =
      some PyRef.foreign := by
  refine ⟨?_, ?_, ?_⟩
  · rw [(buildChain_eq N).1]
    by_cases hiN : i = N
    · rw [hiN]
      unfold getCurrentNode
      have hcc : chainHeap N N = none := by simp [chainHeap]
      rw [hcc]
      rfl
    · have hlt : i < N := lt_of_le_of_ne hi hiN
      unfold getCurrentNode
      have hcc : chainHeap N i = some (.node (i + 1)) := by simp [chainHeap, hlt]
      rw [hcc]
      exact getCurrentLoop_chain N (N + 1) (i + 1) i (chainHeap N)
        (fun m _ => rfl) (by omega) (by omega) (by omega)
  · intro h self fuel hnone
    unfold getCurrentNode
    rw [hnone]
  · by_cases hiN : i = N
    · rw [hiN]
      unfold getCurrentNode
      have hcc : foreignChain N N = some .foreign := by simp [foreignChain]
      rw [hcc]
      rfl
    · have hlt : i < N := lt_of_le_of_ne hi hiN
      unfold getCurrentNode
      have hcc : foreignChain N i = some (.node (i + 1)) := by
        simp [foreignChain, hlt]
      rw [hcc]
      exact getCurrentLoop_foreignChain N (N + 3) (i + 1) i (foreignChain N)
        (fun m _ => rfl) (by omega) (by omega) (by omega)

/-- Witness for C1 at `N = 3`, `i = 1`. -/
theorem c1_get_current_node_chain_witness :
    (getCurrentNode 4 (buildChain 3).1 1).map Prod.fst = some (.node 3)
    ∧ (∀ (h : RHeap) (self fuel : Nat), h self = none →
        getCurrentNode fuel h self = some (.node self, h))
    ∧ (getCurrentNode 6 (foreignChain 3) 1).map Prod.fst =
      some PyRef.foreign :=
  c1_get_current_node_chain 3 1 (by decide) (by decide)


/-! ## Claim C2: staleness rejection of mutating operations -/

/-- **C2** (code bug): `_check_replacement` tests `if self._replacement_node:`
- Python *truthiness* - while `get_current_node` and the documentation define
"out of date" as `_replacement_node is not None`.  A stale node whose
replacement is a *falsy* node (an empty `XMLCDATANode`, produced for example
by `set_cdata("")`, or an empty `XMLDictNode`) passes the check: here
`set_xml_attr` succeeds and mutates the stale node even though its
replacement link is non-null.  With a truthy replacement the documented
`AttributeError` is raised and the node is unchanged. -/
theorem c2_truthiness_check_bug :
    (some (ReplacementRef.cdataNode "") ≠ (none : Option ReplacementRef))
    ∧ setXmlAttr { text := "x", xmlAttrs := [], repl := some (.cdataNode "") }
        "a" "b" =
      .ok { text := "x", xmlAttrs := [("a", "b")], repl := some (.cdataNode "") }
    ∧ setXmlAttr { text := "x", xmlAttrs := [], repl := some (.cdataNode "y") }
        "a" "b" =
      .error (.attributeError
        ("Attempt to modify an out-of-date node. " ++
         "Use get_current_node() to update the reference."))
    ∧ appendCdataBase { text := "x", xmlAttrs := [], repl := some (.dictNode 0) }
        "z" =
      .ok { text := "xz", xmlAttrs := [], repl := some (.dictNode 0) }
    ∧ setCdataBase { text := "x", xmlAttrs := [], repl := some (.listNode 2) }
        "w" =
      .error (.attributeError
        ("Attempt to modify an out-of-date node. " ++
         "Use get_current_node() to update the reference.")) := by
  refine ⟨by decide, by decide, by decide, by decide, by decide⟩

/-! ## Claim C10: read-only operations on stale nodes -/

/-- **C10** (counterexample): the claim says `get_xml_attr` on a stale node
succeeds without raising "with or without a default"; but without a default
and with the attribute absent it raises `KeyError` (stale or not). -/
theorem c10_counterexample_get_xml_attr_keyerror :
    (some (ReplacementRef.cdataNode "new") ≠ (none : Option ReplacementRef))
    ∧ getXmlAttr ⟨"old", [], some (.cdataNode "new")⟩ "missing" none =
      .error (.keyError "missing") := by
  refine ⟨by decide, by decide⟩

/-- **C10** (amended): on a node whose replacement link is non-null, the
read-only operations perform no staleness check: `get_cdata`,
`get_xml_attrs` and `has_xml_attrs` always succeed and return the stale
node's own retained data; `get_xml_attr` never raises the staleness
`AttributeError` - it returns the stored value when the attribute is
present, the supplied default when given, and raises `KeyError` only when
the attribute is absent and no default was supplied; `get_current_node`
succeeds on every finite replacement chain. -/
theorem c10_stale_reads_succeed (n : AttrNode) (hstale : n.repl ≠ none) :
    getCdata n = n.text
    ∧ getXmlAttrs n = n.xmlAttrs
    ∧ (hasXmlAttrs n = true ↔ n.xmlAttrs ≠ [])
    ∧ (∀ attr v, odGet n.xmlAttrs attr = some v →
        getXmlAttr n attr none = .ok v)
    ∧ (∀ attr d, getXmlAttr n attr (some d) =
        .ok ((odGet n.xmlAttrs attr).getD d))
    ∧ (∀ attr, getXmlAttr n attr none = .error (.keyError attr) ↔
        odGet n.xmlAttrs attr = none)
    ∧ (∀ N i, i ≤ N →
        (getCurrentNode (N + 1) (buildChain N).1 i).isSome = true) := by
  refine ⟨rfl, rfl, ?_, ?_, ?_, ?_, ?_⟩
  · unfold hasXmlAttrs
    constructor
    · intro h hnil
      rw [hnil] at h
      simp at h
    · intro h
      simp only [decide_eq_true_eq]
      exact List.length_pos.mpr h
  · intro attr v hget
    unfold getXmlAttr
    rw [hget]
  · intro attr d
    unfold getXmlAttr
    match hget : odGet n.xmlAttrs attr with
    | some v => rfl
    | none => rfl
  · intro attr
    unfold getXmlAttr
    match hget : odGet n.xmlAttrs attr with
    | some v => simp
    | none => simp
  · intro N i hi
    rw [(buildChain_eq N).1]
    by_cases hiN : i = N
    · rw [hiN]
      unfold getCurrentNode
      have hcc : chainHeap N N = none := by simp [chainHeap]
      rw [hcc]
      rfl
    · have hlt : i < N := lt_of_le_of_ne hi hiN
      unfold getCurrentNode
      have hcc : chainHeap N i = some (.node (i + 1)) := by simp [chainHeap, hlt]
      rw [hcc]
      show (getCurrentLoop (N + 1) (chainHeap N) i (.node (i + 1))).isSome = true
      have := getCurrentLoop_chain N (N + 1) (i + 1) i (chainHeap N)
        (fun m _ => rfl) (by omega) (by omega) (by omega)
      match hres : getCurrentLoop (N + 1) (chainHeap N) i (.node (i + 1)) with
      | some p => rfl
      | none => rw [hres] at this; exact absurd this (by simp)

/-- Witness for C10 at a concrete stale node. -/
theorem c10_stale_reads_succeed_witness :
    getCdata ⟨"old", [("a", "1")], some (.cdataNode "new")⟩ = "old"
    ∧ getXmlAttrs ⟨"old", [("a", "1")], some (.cdataNode "new")⟩ = [("a", "1")]
    ∧ (hasXmlAttrs ⟨"old", [("a", "1")], some (.cdataNode "new")⟩ = true ↔
        ([("a", "1")] : List (String × String)) ≠ [])
    ∧ (∀ attr v, odGet [("a", "1")] attr = some v →
        getXmlAttr ⟨"old", [("a", "1")], some (.cdataNode "new")⟩ attr none = .ok v)
    ∧ (∀ attr d, getXmlAttr ⟨"old", [("a", "1")], some (.cdataNode "new")⟩ attr (some d) =
        .ok ((odGet [("a", "1")] attr).getD d))
    ∧ (∀ attr, getXmlAttr ⟨"old", [("a", "1")], some (.cdataNode "new")⟩ attr none =
        .error (.keyError attr) ↔ odGet [("a", "1")] attr = none)
    ∧ (∀ N i, i ≤ N →
        (getCurrentNode (N + 1) (buildChain N).1 i).isSome = true) :=
  c10_stale_reads_succeed ⟨"old", [("a", "1")], some (.cdataNode "new")⟩
    (by decide)


/-! ## Claim C8: the empty-document special case -/

theorem computeMatchDepth_min_ge (l : List GMatch)
    (h : ∀ m ∈ l, 1 ≤ m.depth) :
    ∀ acc : Int, 1 ≤ acc →
      1 ≤ l.foldl
        (fun acc m => if (m.depth : Int) < acc then (m.depth : Int) else acc)
        acc := by
  induction l with
  | nil => intro acc hacc; exact hacc
  | cons m rest ih =>
    intro acc hacc
    simp only [List.foldl_cons]
    apply ih (fun x hx => h x (List.mem_cons_of_mem m hx))
    by_cases hlt : (m.depth : Int) < acc
    · rw [if_pos hlt]
      have := h m (List.mem_cons_self m rest)
      omega
    · rw [if_neg hlt]
      exact hacc

/-- **C8** (counterexample): the claim says an empty document in generator
mode yields zero matches; but with the accepted depth-0 pattern `"/"`, the
final `end_document` check on the empty path emits the root match, so one
tuple is yielded. -/
theorem c8_counterexample_root_pattern_match :
    parseGeneratorMatches "/" =
      .ok { rooted := true, elements := [], depth := 0, matchString := "/" }
    ∧ parserGenLastChunk (some { isNoElements := true }) false
        (computeMatchDepth
          [{ rooted := true, elements := [], depth := 0, matchString := "/" }])
        [{ rooted := true, elements := [], depth := 0, matchString := "/" }]
        0 =
      .ok [("/", "/", 0)] := by
  refine ⟨by decide, by decide⟩

/-- **C8** (amended): for an input with no elements where the tokenizer
reports only the "no elements" error and the handler processed no
element/character content (`processing_started` is false), full-tree parsing
returns the handler's empty root `XMLDictNode` without raising, and generator
parsing yields zero matches provided every configured pattern has depth at
least 1 (the depth-0 pattern `"/"` instead emits the root match at
end-of-document); any other parse error, and the "no elements" error after
content was processed, propagate to the caller in both modes. -/
theorem c8_empty_document (e : ExpatFailure) (tests : List GMatch)
    (item : Nat) (hno : e.isNoElements = true)
    (hdepth : ∀ m ∈ tests, 1 ≤ m.depth) :
    parserCallFull (some e) false emptyRoot = .ok emptyRoot
    ∧ emptyRoot = .dnode 0 none none "" false []
    ∧ parserGenLastChunk (some e) false (computeMatchDepth tests) tests item =
      .ok []
    ∧ (∀ (e2 : ExpatFailure) (started : Bool) (item2 : XNode),
        e2.isNoElements = false →
        parserCallFull (some e2) started item2 = .error e2
        ∧ parserGenLastChunk (some e2) started (computeMatchDepth tests) tests
            item = .error e2)
    ∧ (∀ (item2 : XNode),
        parserCallFull (some e) true item2 = .error e
        ∧ parserGenLastChunk (some e) true (computeMatchDepth tests) tests
            item = .error e) := by
  have hzero : checkGeneratorMatches (computeMatchDepth tests) tests [] item =
      none := by
    unfold checkGeneratorMatches
    match htests : tests with
    | [] =>
      rw [if_neg (by unfold computeMatchDepth; simp)]
      rfl
    | t :: rest =>
      rw [if_pos ?pos]
      case pos =>
        unfold computeMatchDepth
        rw [if_pos (by simp)]
        simp only [List.length_nil, Nat.cast_zero]
        have := computeMatchDepth_min_ge (t :: rest) (htests ▸ hdepth) 1000000
          (by omega)
        omega
  refine ⟨?_, rfl, ?_, ?_, ?_⟩
  · simp [parserCallFull, hno]
  · simp [parserGenLastChunk, hno, hzero]
  · intro e2 started item2 hno2
    refine ⟨by simp [parserCallFull, hno2], by simp [parserGenLastChunk, hno2]⟩
  · intro item2
    refine ⟨by simp [parserCallFull, hno], by simp [parserGenLastChunk, hno]⟩

/-- Witness for C8 with the suffix pattern `"z"` of depth 1. -/
theorem c8_empty_document_witness :
    parserCallFull (some { isNoElements := true }) false emptyRoot =
      .ok emptyRoot
    ∧ emptyRoot = .dnode 0 none none "" false []
    ∧ parserGenLastChunk (some { isNoElements := true }) false
        (computeMatchDepth
          [{ rooted := false, elements := ["z"], depth := 1, matchString := "z" }])
        [{ rooted := false, elements := ["z"], depth := 1, matchString := "z" }]
        0 =
      .ok []
    ∧ (∀ (e2 : ExpatFailure) (started : Bool) (item2 : XNode),
        e2.isNoElements = false →
        parserCallFull (some e2) started item2 = .error e2
        ∧ parserGenLastChunk (some e2) started
            (computeMatchDepth
              [{ rooted := false, elements := ["z"], depth := 1,
                 matchString := "z" }])
            [{ rooted := false, elements := ["z"], depth := 1,
               matchString := "z" }] 0 = .error e2)
    ∧ (∀ (item2 : XNode),
        parserCallFull (some { isNoElements := true }) true item2 =
          .error { isNoElements := true }
        ∧ parserGenLastChunk (some { isNoElements := true }) true
            (computeMatchDepth
              [{ rooted := false, elements := ["z"], depth := 1,
                 matchString := "z" }])
            [{ rooted := false, elements := ["z"], depth := 1,
               matchString := "z" }] 0 =
          .error { isNoElements := true }) :=
  c8_empty_document { isNoElements := true }
    [{ rooted := false, elements := ["z"], depth := 1, matchString := "z" }]
    0 (by decide) (by decide)


/-! ## Claim C9: multi-root validation of `emit_handler` -/

/-- On a tree with no `_ignore_level` flag set, two or more top-level
elements force `full_document_ok` to `False`. -/
theorem fullDocumentOk_eq_false_of_multi :
    ∀ (n : XNode), noIgnoreLevel n = true → 2 ≤ topLevelCount n →
      fullDocumentOk n = false
  | .cdata _ _ _ _, _, hm => by
    simp [topLevelCount] at hm
  | .lnode i t k items, hc, hm => by
    match items with
    | [] => simp [topLevelCount, topLevelCount.countItems] at hm
    | [x] =>
      have hx : noIgnoreLevel x = true := by
        simp [noIgnoreLevel, noIgnoreLevel.goItems] at hc
        exact hc
      have hmx : 2 ≤ topLevelCount x := by
        simp only [topLevelCount, topLevelCount.countItems] at hm
        omega
      show fullDocumentOk x = false
      exact fullDocumentOk_eq_false_of_multi x hx hmx
    | a :: b :: rest => rfl
  | .dnode i t k x ign entries, hc, hm => by
    have hign : ign = false := by
      simp [noIgnoreLevel] at hc
      exact hc.1
    match htag : t with
    | some s =>
      rw [hign] at hm
      simp [topLevelCount] at hm
    | none =>
      match entries with
      | [] => simp [topLevelCount, topLevelCount.countEntries] at hm
      | [e] =>
        have he : noIgnoreLevel e.2 = true := by
          simp [noIgnoreLevel, noIgnoreLevel.goEntries] at hc
          exact hc.2
        have hme : 2 ≤ topLevelCount e.2 := by
          simp only [topLevelCount, topLevelCount.countEntries] at hm
          split at hm
          · omega
          · omega
        show fullDocumentOk e.2 = false
        exact fullDocumentOk_eq_false_of_multi e.2 he hme
      | a :: b :: rest => rfl

/-- **C9** (counterexample): a *tagged* dict node carrying the internal
`_ignore_level` flag (set by `dict()` conversions) serializes its two
children transparently as two top-level elements, yet `full_document_ok`
does not consult the flag: `emit_handler` with `full_document=True` does not
raise, and with `full_document` unset it even defaults to `True`. -/
theorem c9_counterexample_ignore_level :
    topLevelCount (.dnode 0 (some "t") none "" true
      [("a", .cdata 1 (some "a") (some "a") "x"),
       ("b", .cdata 2 (some "b") (some "b") "y")]) = 2
    ∧ emitHandlerDecision (.dnode 0 (some "t") none "" true
        [("a", .cdata 1 (some "a") (some "a") "x"),
         ("b", .cdata 2 (some "b") (some "b") "y")]) none (some true) =
      .ok true
    ∧ emitHandlerDecision (.dnode 0 (some "t") none "" true
        [("a", .cdata 1 (some "a") (some "a") "x"),
         ("b", .cdata 2 (some "b") (some "b") "y")]) none none =
      .ok true := by
  refine ⟨rfl, rfl, rfl⟩

/-- **C9** (amended): for every tree in which no dict node carries the
internal `_ignore_level` flag, if the tree would serialize to two or more
top-level elements then `emit_handler` with `full_document=True` raises
`ValueError`, and with `full_document` unset the tree is emitted with
`full_document` treated as `False` (no document wrapper, no error). -/
theorem c9_multiroot_validation (n : XNode) (parent : Option XNode)
    (hclean : noIgnoreLevel n = true) (hmulti : 2 ≤ topLevelCount n) :
    emitHandlerDecision n parent (some true) =
      .error ("Document will have more than one root node. " ++
              "The full_document argument must be False.")
    ∧ emitHandlerDecision n parent none = .ok false := by
  have hok : fullDocumentOk n = false :=
    fullDocumentOk_eq_false_of_multi n hclean hmulti
  constructor
  · unfold emitHandlerDecision
    rw [hok]
    rfl
  · unfold emitHandlerDecision
    rw [hok]
    rfl

/-- Witness for C9 at a tagless root dict with two children. -/
theorem c9_multiroot_validation_witness :
    emitHandlerDecision (.dnode 0 none none "" false
        [("a", .cdata 1 (some "a") (some "a") "x"),
         ("b", .cdata 2 (some "b") (some "b") "y")]) none (some true) =
      .error ("Document will have more than one root node. " ++
              "The full_document argument must be False.")
    ∧ emitHandlerDecision (.dnode 0 none none "" false
        [("a", .cdata 1 (some "a") (some "a") "x"),
         ("b", .cdata 2 (some "b") (some "b") "y")]) none none = .ok false :=
  c9_multiroot_validation
    (.dnode 0 none none "" false
      [("a", .cdata 1 (some "a") (some "a") "x"),
       ("b", .cdata 2 (some "b") (some "b") "y")]) none (by rfl) (by
        show 2 ≤ topLevelCount (.dnode 0 none none "" false
          [("a", .cdata 1 (some "a") (some "a") "x"),
           ("b", .cdata 2 (some "b") (some "b") "y")])
        rfl)


/-! ## Helper lemmas: the ordered dictionary -/

theorem odGet_eq_none_iff {α : Type} (d : List (String × α)) (k : String) :
    odGet d k = none ↔ k ∉ d.map Prod.fst := by
  induction d with
  | nil => simp [odGet]
  | cons e rest ih =>
    unfold odGet
    by_cases hk : e.1 = k
    · simp [hk]
    · rw [if_neg hk]
      simp only [List.map_cons, List.mem_cons]
      rw [ih]
      constructor
      · intro h hmem
        rcases hmem with h1 | h2
        · exact hk h1.symm
        · exact h h2
      · intro h
        exact fun h2 => h (Or.inr h2)

theorem odGet_append_middle {α : Type} (pre post : List (String × α))
    (k : String) (v : α) (hpre : k ∉ pre.map Prod.fst) :
    odGet (pre ++ (k, v) :: post) k = some v := by
  induction pre with
  | nil => simp [odGet]
  | cons e rest ih =>
    obtain ⟨ek, ev⟩ := e
    simp only [List.map_cons, List.mem_cons] at hpre
    have h1 : ek ≠ k := fun h => hpre (Or.inl h.symm)
    have h2 : k ∉ rest.map Prod.fst := fun h => hpre (Or.inr h)
    rw [List.cons_append]
    show odGet ((ek, ev) :: (rest ++ (k, v) :: post)) k = some v
    simp only [odGet]
    rw [if_neg h1]
    exact ih h2

theorem odGet_append_left_none {α : Type} (pre rest : List (String × α))
    (k : String) (hpre : k ∉ pre.map Prod.fst) :
    odGet (pre ++ rest) k = odGet rest k := by
  induction pre with
  | nil => rfl
  | cons e tail ih =>
    obtain ⟨ek, ev⟩ := e
    simp only [List.map_cons, List.mem_cons] at hpre
    have h1 : ek ≠ k := fun h => hpre (Or.inl h.symm)
    have h2 : k ∉ tail.map Prod.fst := fun h => hpre (Or.inr h)
    rw [List.cons_append]
    show odGet ((ek, ev) :: (tail ++ rest)) k = odGet rest k
    simp only [odGet]
    rw [if_neg h1]
    exact ih h2

theorem odSet_append_middle {α : Type} (pre post : List (String × α))
    (k : String) (v v2 : α) (hpre : k ∉ pre.map Prod.fst) :
    odSet (pre ++ (k, v) :: post) k v2 = pre ++ (k, v2) :: post := by
  induction pre with
  | nil => simp [odSet]
  | cons e rest ih =>
    obtain ⟨ek, ev⟩ := e
    simp only [List.map_cons, List.mem_cons] at hpre
    have h1 : ek ≠ k := fun h => hpre (Or.inl h.symm)
    have h2 : k ∉ rest.map Prod.fst := fun h => hpre (Or.inr h)
    rw [List.cons_append]
    show odSet ((ek, ev) :: (rest ++ (k, v) :: post)) k v2 =
      (ek, ev) :: (rest ++ (k, v2) :: post)
    simp only [odSet]
    rw [if_neg h1, ih h2]

theorem odDelete_append_middle {α : Type} (pre post : List (String × α))
    (k : String) (v : α) (hpre : k ∉ pre.map Prod.fst) :
    odDelete (pre ++ (k, v) :: post) k = pre ++ post := by
  induction pre with
  | nil => simp [odDelete]
  | cons e rest ih =>
    obtain ⟨ek, ev⟩ := e
    simp only [List.map_cons, List.mem_cons] at hpre
    have h1 : ek ≠ k := fun h => hpre (Or.inl h.symm)
    have h2 : k ∉ rest.map Prod.fst := fun h => hpre (Or.inr h)
    rw [List.cons_append]
    show odDelete ((ek, ev) :: (rest ++ (k, v) :: post)) k =
      (ek, ev) :: (rest ++ post)
    simp only [odDelete]
    rw [if_neg h1, ih h2]

theorem odSet_append_absent {α : Type} (d : List (String × α)) (k : String)
    (v : α) (habsent : k ∉ d.map Prod.fst) :
    odSet d k v = d ++ [(k, v)] := by
  induction d with
  | nil => rfl
  | cons e rest ih =>
    obtain ⟨ek, ev⟩ := e
    simp only [List.map_cons, List.mem_cons] at habsent
    have h1 : ek ≠ k := fun h => habsent (Or.inl h.symm)
    have h2 : k ∉ rest.map Prod.fst := fun h => habsent (Or.inr h)
    show odSet ((ek, ev) :: rest) k v = (ek, ev) :: (rest ++ [(k, v)])
    simp only [odSet]
    rw [if_neg h1, ih h2]

/-! ## Claim C3: duplicate-key promotion in `XMLDictNode.add_node` -/

/-- **C3**: for any dict entries with unique keys and a fresh non-empty key
`k`, three successive default `add_node` calls under `k`: the first stores
the created CDATA child directly under `k` (appended in first-seen order);
the second converts the single child into an `XMLListNode` of length 2
holding the old child then the new child, in that order; the third appends,
giving length 3.  Throughout, the key list stays `pre.map fst ++ [k]` - keys
remain unique and insertion order of distinct keys is first-seen order. -/
theorem c3_duplicate_key_promotion (pre : List (String × XNode))
    (tag k : String) (t1 t2 t3 : String) (id1 id2 id3 lid lid2 : Nat)
    (hk : k ≠ "") (hfresh : k ∉ pre.map Prod.fst)
    (huniq : (pre.map Prod.fst).Nodup) :
    dictAddNode none pre tag (some k) t1 none true id1 lid =
      .ok (pre ++ [(k, .cdata id1 (some tag) (some k) t1)],
           .cdata id1 (some tag) (some k) t1)
    ∧ dictAddNode none (pre ++ [(k, .cdata id1 (some tag) (some k) t1)])
        tag (some k) t2 none true id2 lid =
      .ok (pre ++ [(k, .lnode lid (some tag) (some k)
              [.cdata id1 (some tag) (some k) t1,
               .cdata id2 (some tag) (some k) t2])],
           .cdata id2 (some tag) (some k) t2)
    ∧ dictAddNode none
        (pre ++ [(k, .lnode lid (some tag) (some k)
            [.cdata id1 (some tag) (some k) t1,
             .cdata id2 (some tag) (some k) t2])])
        tag (some k) t3 none true id3 lid2 =
      .ok (pre ++ [(k, .lnode lid (some tag) (some k)
              [.cdata id1 (some tag) (some k) t1,
               .cdata id2 (some tag) (some k) t2,
               .cdata id3 (some tag) (some k) t3])],
           .cdata id3 (some tag) (some k) t3)
    ∧ ((pre ++ [(k, XNode.cdata id1 (some tag) (some k) t1)]).map Prod.fst =
        pre.map Prod.fst ++ [k])
    ∧ ((pre ++ [(k, XNode.lnode lid (some tag) (some k)
          [XNode.cdata id1 (some tag) (some k) t1,
           XNode.cdata id2 (some tag) (some k) t2])]).map Prod.fst =
        pre.map Prod.fst ++ [k])
    ∧ (pre.map Prod.fst ++ [k]).Nodup := by
  have hget1 : odGet pre k = none := (odGet_eq_none_iff pre k).mpr hfresh
  have hget2 : odGet (pre ++ [(k, XNode.cdata id1 (some tag) (some k) t1)]) k =
      some (.cdata id1 (some tag) (some k) t1) :=
    odGet_append_middle pre [] k _ hfresh
  have hget3 : odGet (pre ++ [(k, XNode.lnode lid (some tag) (some k)
      [.cdata id1 (some tag) (some k) t1,
       .cdata id2 (some tag) (some k) t2])]) k =
      some (.lnode lid (some tag) (some k)
        [.cdata id1 (some tag) (some k) t1,
         .cdata id2 (some tag) (some k) t2]) :=
    odGet_append_middle pre [] k _ hfresh
  have hchk : checkReplacement (none : Option ReplacementRef) = .ok () := rfl
  refine ⟨?_, ?_, ?_, by simp, by simp, ?_⟩
  · simp only [dictAddNode, hchk]
    rw [if_pos hk, hget1]
    rfl
  · simp only [dictAddNode, hchk]
    rw [if_pos hk]
    simp only [if_true, XNode.setKeyField]
    rw [hget2]
    simp only []
    rw [odSet_append_middle pre [] k _ _ hfresh,
      odGet_append_middle pre [] k _ hfresh]
    show Except.ok
        (odSet (pre ++ [(k, XNode.lnode lid (some tag) (some k)
            [XNode.cdata id1 (some tag) (some k) t1])]) k
          (XNode.lnode lid (some tag) (some k)
            ([XNode.cdata id1 (some tag) (some k) t1] ++
             [XNode.cdata id2 (some tag) (some k) t2])),
         XNode.cdata id2 (some tag) (some k) t2) = _
    rw [odSet_append_middle pre [] k _ _ hfresh]
    rfl
  · simp only [dictAddNode, hchk]
    rw [if_pos hk]
    simp only [if_true, XNode.setKeyField]
    rw [hget3]
    simp only []
    rw [odGet_append_middle pre [] k _ hfresh]
    show Except.ok
        (odSet (pre ++ [(k, XNode.lnode lid (some tag) (some k)
            [XNode.cdata id1 (some tag) (some k) t1,
             XNode.cdata id2 (some tag) (some k) t2])]) k
          (XNode.lnode lid (some tag) (some k)
            ([XNode.cdata id1 (some tag) (some k) t1,
              XNode.cdata id2 (some tag) (some k) t2] ++
             [XNode.cdata id3 (some tag) (some k) t3])),
         XNode.cdata id3 (some tag) (some k) t3) = _
    rw [odSet_append_middle pre [] k _ _ hfresh]
    rfl
  · rw [List.nodup_append]
    refine ⟨huniq, List.nodup_singleton k, ?_⟩
    intro a ha hmem
    simp only [List.mem_singleton] at hmem
    subst hmem
    exact hfresh ha


/-- Witness for C3: three adds under key `"b"` into an empty dict. -/
theorem c3_duplicate_key_promotion_witness :
    dictAddNode none [] "b" (some "b") "1" none true 1 100 =
      .ok ([("b", XNode.cdata 1 (some "b") (some "b") "1")],
           XNode.cdata 1 (some "b") (some "b") "1")
    ∧ dictAddNode none [("b", XNode.cdata 1 (some "b") (some "b") "1")]
        "b" (some "b") "2" none true 2 100 =
      .ok ([("b", XNode.lnode 100 (some "b") (some "b")
              [XNode.cdata 1 (some "b") (some "b") "1",
               XNode.cdata 2 (some "b") (some "b") "2"])],
           XNode.cdata 2 (some "b") (some "b") "2")
    ∧ dictAddNode none
        [("b", XNode.lnode 100 (some "b") (some "b")
            [XNode.cdata 1 (some "b") (some "b") "1",
             XNode.cdata 2 (some "b") (some "b") "2"])]
        "b" (some "b") "3" none true 3 101 =
      .ok ([("b", XNode.lnode 100 (some "b") (some "b")
              [XNode.cdata 1 (some "b") (some "b") "1",
               XNode.cdata 2 (some "b") (some "b") "2",
               XNode.cdata 3 (some "b") (some "b") "3"])],
           XNode.cdata 3 (some "b") (some "b") "3")
    ∧ ([("b", XNode.cdata 1 (some "b") (some "b") "1")].map Prod.fst = ["b"])
    ∧ ([("b", XNode.lnode 100 (some "b") (some "b")
          [XNode.cdata 1 (some "b") (some "b") "1",
           XNode.cdata 2 (some "b") (some "b") "2"])].map Prod.fst = ["b"])
    ∧ (["b"] : List String).Nodup :=
  c3_duplicate_key_promotion [] "b" "b" "1" "2" "3" 1 2 3 100 101
    (by decide) (by simp) (by simp)


/-! ## Helper lemmas: Python `==` is reflexive; positional list operations -/

mutual
theorem pyEq_refl : ∀ (n : XNode), pyEq n n = true
  | .cdata _ _ _ t => by simp [pyEq]
  | .dnode _ _ _ _ _ entries => by
    have h := pyEqEntries_refl entries
    simp [pyEq, h]
  | .lnode _ _ _ items => by
    have h := pyEqItems_refl items
    simp [pyEq, h]

theorem pyEqEntries_refl : ∀ (l : List (String × XNode)),
    pyEq.pyEqEntries l l = true
  | [] => rfl
  | (k, v) :: rest => by
    have h1 := pyEq_refl v
    have h2 := pyEqEntries_refl rest
    simp [pyEq.pyEqEntries, h1, h2]

theorem pyEqItems_refl : ∀ (l : List XNode), pyEq.pyEqItems l l = true
  | [] => rfl
  | x :: rest => by
    have h1 := pyEq_refl x
    have h2 := pyEqItems_refl rest
    simp [pyEq.pyEqItems, h1, h2]
end

theorem findIdx?_middle_aux {α : Type} (p : α → Bool) :
    ∀ (pre : List α) (post : List α) (x : α) (i : Nat), p x = true →
      (∀ e ∈ pre, p e = false) →
      List.findIdx? p (pre ++ x :: post) i = some (i + pre.length) := by
  intro pre
  induction pre with
  | nil =>
    intro post x i hx _
    rw [List.nil_append, List.findIdx?_cons, if_pos hx]
    simp
  | cons a rest ih =>
    intro post x i hx hpre
    rw [List.cons_append, List.findIdx?_cons,
      if_neg (by simp [hpre a (List.mem_cons_self a rest)]),
      ih post x (i + 1) hx (fun e he => hpre e (List.mem_cons_of_mem a he))]
    congr 1
    simp
    omega

theorem findIdx?_none_aux {α : Type} (p : α → Bool) :
    ∀ (l : List α) (i : Nat), (∀ e ∈ l, p e = false) →
      List.findIdx? p l i = none := by
  intro l
  induction l with
  | nil => intro i _; rfl
  | cons a rest ih =>
    intro i hall
    rw [List.findIdx?_cons, if_neg (by simp [hall a (List.mem_cons_self a rest)])]
    exact ih (i + 1) (fun e he => hall e (List.mem_cons_of_mem a he))

theorem eraseIdx_append_length {α : Type} (pre post : List α) (x : α) :
    (pre ++ x :: post).eraseIdx pre.length = pre ++ post := by
  induction pre with
  | nil => rfl
  | cons a rest ih =>
    show (a :: (rest ++ x :: post)).eraseIdx (rest.length + 1) = a :: (rest ++ post)
    show a :: (rest ++ x :: post).eraseIdx rest.length = a :: (rest ++ post)
    rw [ih]

theorem set_append_length {α : Type} (pre post : List α) (x n : α) :
    (pre ++ x :: post).set pre.length n = pre ++ n :: post := by
  induction pre with
  | nil => rfl
  | cons a rest ih =>
    show (a :: (rest ++ x :: post)).set (rest.length + 1) n = a :: (rest ++ n :: post)
    show a :: (rest ++ x :: post).set rest.length n = a :: (rest ++ n :: post)
    rw [ih]

theorem find?_middle {α : Type} (p : α → Bool) (pre post : List α) (x : α)
    (hx : p x = true) (hpre : ∀ e ∈ pre, p e = false) :
    (pre ++ x :: post).find? p = some x := by
  induction pre with
  | nil =>
    rw [List.nil_append]
    exact List.find?_cons_of_pos post hx
  | cons a rest ih =>
    rw [List.cons_append,
      show List.find? p (a :: (rest ++ x :: post)) =
          List.find? p (rest ++ x :: post) from
        List.find?_cons_of_neg _ (by simp [hpre a (List.mem_cons_self a rest)])]
    exact ih (fun e he => hpre e (List.mem_cons_of_mem a he))

theorem odGet_mem {α : Type} :
    ∀ (d : List (String × α)) (k : String) (v : α),
      odGet d k = some v → (k, v) ∈ d := by
  intro d
  induction d with
  | nil => intro k v h; exact absurd h (by simp [odGet])
  | cons e rest ih =>
    intro k v h
    obtain ⟨ek, ev⟩ := e
    simp only [odGet] at h
    by_cases hk : ek = k
    · rw [if_pos hk] at h
      subst hk
      cases h
      exact List.mem_cons_self _ _
    · rw [if_neg hk] at h
      exact List.mem_cons_of_mem _ (ih k v h)


/-! ## Claim C6: `_replace_node` -/

theorem replaceInList_middle (pre post : List XNode) (self : XNode)
    (new : Option XNode) (hpre : ∀ e ∈ pre, pyEq e self = false) :
    replaceInList (pre ++ self :: post) self new =
      (match new with
       | some n => .ok (pre ++ n :: post, false)
       | none => .ok (pre ++ post, decide ((pre ++ post).length = 0))) := by
  have hidx : firstPyEqIdx (pre ++ self :: post) self = some pre.length := by
    unfold firstPyEqIdx
    have h := findIdx?_middle_aux (fun x => pyEq x self) pre post self 0
      (pyEq_refl self) hpre
    simpa using h
  unfold replaceInList
  rw [hidx]
  match new with
  | some n =>
    simp only []
    rw [set_append_length]
  | none =>
    simp only []
    rw [eraseIdx_append_length]


theorem replaceInDict_planA_delete (fuel : Nat) (pre post : List (String × XNode))
    (k : String) (self : XNode) (hpre : k ∉ pre.map Prod.fst) :
    replaceInDict (fuel + 1) (pre ++ (k, self) :: post) (some k) self none =
      .ok (pre ++ post) := by
  simp only [replaceInDict]
  rw [odGet_append_middle pre post k self hpre]
  simp only [pyEq_refl, if_true]
  rw [odDelete_append_middle pre post k self hpre]

theorem replaceInDict_planB_install (fuel : Nat) (pre post : List (String × XNode))
    (k k2 : String) (self nn : XNode)
    (hA : k2 ∉ (pre ++ (k, self) :: post).map Prod.fst)
    (hpre : ∀ e ∈ pre, planBHit e.2 self = false)
    (hkpre : k ∉ pre.map Prod.fst) :
    replaceInDict (fuel + 1) (pre ++ (k, self) :: post) (some k2) self (some nn) =
      .ok (pre ++ (k, nn.setKeyField (some k)) :: post) := by
  simp only [replaceInDict]
  rw [(odGet_eq_none_iff _ k2).mpr hA]
  simp only []
  rw [find?_middle (fun e => planBHit e.2 self) pre post (k, self)
    (by simp [planBHit, pyEq_refl]) hpre]
  simp only [pyEq_refl, if_true]
  rw [odSet_append_middle pre post k _ _ hkpre]

theorem replaceInDict_notFound (fuel : Nat) (entries : List (String × XNode))
    (sk : Option String) (self : XNode)
    (hall : ∀ e ∈ entries, planBHit e.2 self = false) :
    replaceInDict (fuel + 1) entries sk self none =
      .error (.attributeError "Unable to find existing node in parent") := by
  have hfind : entries.find? (fun e => planBHit e.2 self) = none :=
    List.find?_eq_none.mpr (fun x hx => by simp [hall x hx])
  match sk with
  | none =>
    simp only [replaceInDict, hfind]
  | some k =>
    match hget : odGet entries k with
    | none =>
      simp only [replaceInDict, hget, hfind]
    | some v =>
      have hmem := odGet_mem entries k v hget
      have hhit := hall (k, v) hmem
      have hpy : pyEq v self = false := by
        unfold planBHit at hhit
        exact (Bool.or_eq_false_iff.mp hhit).1
      simp only [replaceInDict, hget, hpy, Bool.false_eq_true, if_false, hfind]

theorem replaceInList_notFound (items : List XNode) (self : XNode)
    (new : Option XNode) (hall : ∀ e ∈ items, pyEq e self = false) :
    replaceInList items self new =
      .error (.attributeError "Unable to find existing node in parent") := by
  unfold replaceInList
  have hidx : firstPyEqIdx items self = none := by
    unfold firstPyEqIdx
    exact findIdx?_none_aux _ items 0 hall
  rw [hidx]

theorem replaceInListThenDict_singleton (fuel : Nat)
    (gpre gpost : List (String × XNode)) (gk : String) (lid : Nat)
    (ltag : Option String) (self : XNode) (hpre : gk ∉ gpre.map Prod.fst) :
    replaceInListThenDict (fuel + 1)
      (gpre ++ (gk, XNode.lnode lid ltag (some gk) [self]) :: gpost)
      gk lid ltag (some gk) [self] self none = .ok (gpre ++ gpost) := by
  unfold replaceInListThenDict
  have h0 := replaceInList_middle [] [] self none (fun e he => absurd he (by simp))
  simp only [List.nil_append, List.append_nil, List.length_nil] at h0
  rw [h0]
  simp only []
  rw [odSet_append_middle gpre gpost gk _ _ hpre]
  rw [if_pos (by decide)]
  rw [replaceInDict_planA_delete fuel gpre gpost gk _ hpre]

/-- **C6**: for a node located in its parent, `_replace_node(None)` deletes
the node's slot: (1) a dict parent's entry is removed (Plan A, by key); (2)
a list parent's member is removed, reporting whether the list became empty;
(3) when the deleted member was the last one of a list stored under a dict
key, the emptied list is recursively replaced-with-null in its own parent,
so the enclosing key disappears entirely; (4) a non-null replacement
installed via the Plan-B fallback scan has its `key` corrected to the slot's
key before installation; (5) a null parent raises `AttributeError`; (6) a
node that cannot be located in its parent raises `AttributeError` (dict and
list parents). -/
theorem c6_replace_node_semantics :
    (∀ (fuel : Nat) (pre post : List (String × XNode)) (k : String)
        (self : XNode), k ∉ pre.map Prod.fst →
      replaceNode (fuel + 1) none (some k) self
          (.dictP (pre ++ (k, self) :: post)) none =
        .ok (.dictUpdated (pre ++ post)))
    ∧ (∀ (fuel : Nat) (pre post : List XNode) (sk : Option String)
        (self : XNode), (∀ e ∈ pre, pyEq e self = false) →
      replaceNode fuel none sk self (.listP (pre ++ self :: post)) none =
        .ok (.listUpdated (pre ++ post) (decide ((pre ++ post).length = 0))))
    ∧ (∀ (fuel : Nat) (gpre gpost : List (String × XNode)) (gk : String)
        (lid : Nat) (ltag : Option String) (self : XNode),
        gk ∉ gpre.map Prod.fst →
      replaceInListThenDict (fuel + 1)
          (gpre ++ (gk, XNode.lnode lid ltag (some gk) [self]) :: gpost)
          gk lid ltag (some gk) [self] self none = .ok (gpre ++ gpost))
    ∧ (∀ (fuel : Nat) (pre post : List (String × XNode)) (k k2 : String)
        (self nn : XNode),
        k2 ∉ (pre ++ (k, self) :: post).map Prod.fst →
        (∀ e ∈ pre, planBHit e.2 self = false) →
        k ∉ pre.map Prod.fst →
      replaceNode (fuel + 1) none (some k2) self
          (.dictP (pre ++ (k, self) :: post)) (some nn) =
        .ok (.dictUpdated (pre ++ (k, nn.setKeyField (some k)) :: post))
      ∧ (nn.setKeyField (some k)).keyField = some k)
    ∧ (∀ (fuel : Nat) (sk : Option String) (self : XNode)
        (new : Option XNode),
      replaceNode fuel none sk self .null new =
        .error (.attributeError "Attempt to modify root document"))
    ∧ (∀ (fuel : Nat) (entries : List (String × XNode)) (sk : Option String)
        (self : XNode), (∀ e ∈ entries, planBHit e.2 self = false) →
      replaceNode (fuel + 1) none sk self (.dictP entries) none =
        .error (.attributeError "Unable to find existing node in parent"))
    ∧ (∀ (fuel : Nat) (items : List XNode) (sk : Option String)
        (self : XNode) (new : Option XNode),
        (∀ e ∈ items, pyEq e self = false) →
      replaceNode fuel none sk self (.listP items) new =
        .error (.attributeError "Unable to find existing node in parent")) := by
  have hchk : checkReplacement (none : Option ReplacementRef) = .ok () := rfl
  refine ⟨?_, ?_, ?_, ?_, ?_, ?_, ?_⟩
  · intro fuel pre post k self hpre
    simp only [replaceNode, hchk]
    rw [replaceInDict_planA_delete fuel pre post k self hpre]
    rfl
  · intro fuel pre post sk self hpre
    simp only [replaceNode, hchk]
    rw [replaceInList_middle pre post self none hpre]
    rfl
  · intro fuel gpre gpost gk lid ltag self hpre
    exact replaceInListThenDict_singleton fuel gpre gpost gk lid ltag self hpre
  · intro fuel pre post k k2 self nn hA hpre hkpre
    refine ⟨?_, ?_⟩
    · simp only [replaceNode, hchk]
      rw [replaceInDict_planB_install fuel pre post k k2 self nn hA hpre hkpre]
      rfl
    · match nn with
      | .cdata _ _ _ _ => rfl
      | .dnode _ _ _ _ _ _ => rfl
      | .lnode _ _ _ _ => rfl
  · intro fuel sk self new
    simp only [replaceNode, hchk]
  · intro fuel entries sk self hall
    simp only [replaceNode, hchk]
    rw [replaceInDict_notFound fuel entries sk self hall]
    rfl
  · intro fuel items sk self new hall
    simp only [replaceNode, hchk]
    rw [replaceInList_notFound items self new hall]
    rfl


/-- Witness for C4: the anchored pattern `/a/b` matches the path `a/b`. -/
theorem c4_match_semantics_witness :
    matchesTest ⟨true, ["a", "b"], 2, "/a/b"⟩ ["a", "b"] = true :=
  ((c4_match_semantics "/a/b" ⟨true, ["a", "b"], 2, "/a/b"⟩
      ["a", "b"] (by decide)).1 rfl).mpr ⟨by decide, by decide⟩

end Jxmlease
